import Mathlib

/-!
Verification of speed-cli (a cross-protocol network-performance tool)
against its natural-language specification.

The Rust sources are shallowly embedded: f64 statistics are modelled over
ℚ with exact arithmetic, u64 quantities over ℕ (with explicit modular
reasoning where overflow matters), byte buffers as List ℕ, and the
insertion-ordered IndexMap / IndexSet containers as duplicate-free lists.
Each definition mirrors one Rust item, named after it.
-/

namespace SpeedCli

/-! ## Latency statistics (src/report/result/latency.rs) -/

/-- Rust `f64::round` rounds half away from zero; for the nonnegative
arguments produced inside `percentile_rtt` (p ∈ [0,100], length ≥ 0) this
agrees with ⌊q + 1/2⌋, which is how we model it. -/
def rustRound (q : ℚ) : ℤ := ⌊q + 1/2⌋

/-- `LatencyMeasurement` from latency.rs: `rtt_ms = None` marks a dropped
probe. `elapsed_time` is the Duration field, in microseconds. -/
structure LatencyMeasurement where
  rtt_ms : Option ℚ
  elapsed_time : ℕ
deriving DecidableEq

/-- `LatencyResult` from latency.rs (the chrono timestamp field is omitted:
no derived statistic reads it). -/
structure LatencyResult where
  measurements : List LatencyMeasurement
deriving DecidableEq

/-- `LatencyResult::rtts`: all RTT measurements that are not None. -/
def LatencyResult.rtts (r : LatencyResult) : List ℚ :=
  r.measurements.filterMap (·.rtt_ms)

/-- `LatencyResult::count`. -/
def LatencyResult.count (r : LatencyResult) : ℕ :=
  r.measurements.length

/-- `LatencyResult::successful_count`: measurements whose RTT is Some. -/
def LatencyResult.successful_count (r : LatencyResult) : ℕ :=
  (r.measurements.filter (fun m => m.rtt_ms.isSome)).length

/-- `LatencyResult::dropped_count`: measurements whose RTT is None. -/
def LatencyResult.dropped_count (r : LatencyResult) : ℕ :=
  (r.measurements.filter (fun m => m.rtt_ms.isNone)).length

/-- `LatencyResult::avg_rtt`: the source accumulates the sum and count of
the Some entries (exactly the entries of `rtts`) and returns sum / count
when count > 0. -/
def LatencyResult.avg_rtt (r : LatencyResult) : Option ℚ :=
  if 0 < r.rtts.length then some (r.rtts.sum / (r.rtts.length : ℚ)) else none

/-- The fold inside `LatencyResult::min_rtt`:
`fold(None, |acc, rtt| Some(acc.map_or(rtt, |m| rtt.min(m))))`. -/
def minFold (l : List ℚ) (acc : Option ℚ) : Option ℚ :=
  l.foldl (fun acc rtt => some (acc.elim rtt (fun m => min rtt m))) acc

/-- The fold inside `LatencyResult::max_rtt`. -/
def maxFold (l : List ℚ) (acc : Option ℚ) : Option ℚ :=
  l.foldl (fun acc rtt => some (acc.elim rtt (fun m => max rtt m))) acc

/-- `LatencyResult::min_rtt`. -/
def LatencyResult.min_rtt (r : LatencyResult) : Option ℚ :=
  minFold r.rtts none

/-- `LatencyResult::max_rtt`. -/
def LatencyResult.max_rtt (r : LatencyResult) : Option ℚ :=
  maxFold r.rtts none

/-- `LatencyResult::percentile_rtt`: reject p outside [0,100]; sort the
successful RTTs ascending (sort_by with f64 total comparison, i.e. ≤ on
our exact model); index = round(p/100 · n) as usize; in-range index
returns the element, otherwise None. -/
def LatencyResult.percentile_rtt (r : LatencyResult) (n : ℚ) : Option ℚ :=
  if ¬ (0 ≤ n ∧ n ≤ 100) then none
  else
    let sorted := List.insertionSort (· ≤ ·) r.rtts
    let index := (rustRound (n / 100 * (sorted.length : ℚ))).toNat
    if h : index < sorted.length then some (sorted.get ⟨index, h⟩) else none

/-- The quantity under the square root in `LatencyResult::jitter`
(population variance of the successful RTTs about `avg_rtt`); the source
returns its f64 square root. -/
def LatencyResult.jitterSq (r : LatencyResult) : Option ℚ :=
  if r.rtts = [] then none
  else
    r.avg_rtt.map (fun mean =>
      (r.rtts.map (fun rtt => (rtt - mean)^2)).sum / (r.rtts.length : ℚ))

/-! ### Helper lemmas for the min/max folds -/

theorem minFold_le (l : List ℚ) : ∀ (acc : Option ℚ) (x : ℚ),
    (acc = some x ∨ x ∈ l) → ∃ m, minFold l acc = some m ∧ m ≤ x := by
  induction l with
  | nil =>
    intro acc x hx
    rcases hx with h | h
    · exact ⟨x, by rw [minFold, List.foldl_nil, h], le_refl x⟩
    · simp at h
  | cons r t ih =>
    intro acc x hx
    have hstep : minFold (r :: t) acc = minFold t (some (acc.elim r (fun m => min r m))) := by
      simp [minFold]
    rcases hx with h | h
    · subst h
      rcases ih (some (min r x)) (min r x) (Or.inl rfl) with ⟨m, hm, hle⟩
      exact ⟨m, by rw [hstep]; simpa using hm, le_trans hle (min_le_right r x)⟩
    · rcases List.mem_cons.mp h with h | h
      · subst h
        have hle2 : (acc.elim x (fun m => min x m)) ≤ x := by
          cases acc with
          | none => simp
          | some a => simpa using min_le_left x a
        rcases ih (some (acc.elim x (fun m => min x m))) _ (Or.inl rfl) with ⟨m, hm, hle⟩
        exact ⟨m, by rw [hstep]; exact hm, le_trans hle hle2⟩
      · rcases ih (some (acc.elim r (fun m => min r m))) x (Or.inr h) with ⟨m, hm, hle⟩
        exact ⟨m, by rw [hstep]; exact hm, hle⟩

theorem maxFold_ge (l : List ℚ) : ∀ (acc : Option ℚ) (x : ℚ),
    (acc = some x ∨ x ∈ l) → ∃ m, maxFold l acc = some m ∧ x ≤ m := by
  induction l with
  | nil =>
    intro acc x hx
    rcases hx with h | h
    · exact ⟨x, by rw [maxFold, List.foldl_nil, h], le_refl x⟩
    · simp at h
  | cons r t ih =>
    intro acc x hx
    have hstep : maxFold (r :: t) acc = maxFold t (some (acc.elim r (fun m => max r m))) := by
      simp [maxFold]
    rcases hx with h | h
    · subst h
      rcases ih (some (max r x)) (max r x) (Or.inl rfl) with ⟨m, hm, hle⟩
      exact ⟨m, by rw [hstep]; simpa using hm, le_trans (le_max_right r x) hle⟩
    · rcases List.mem_cons.mp h with h | h
      · subst h
        have hle2 : x ≤ (acc.elim x (fun m => max x m)) := by
          cases acc with
          | none => simp
          | some a => simpa using le_max_left x a
        rcases ih (some (acc.elim x (fun m => max x m))) _ (Or.inl rfl) with ⟨m, hm, hle⟩
        exact ⟨m, by rw [hstep]; exact hm, le_trans hle2 hle⟩
      · rcases ih (some (acc.elim r (fun m => max r m))) x (Or.inr h) with ⟨m, hm, hle⟩
        exact ⟨m, by rw [hstep]; exact hm, hle⟩

/-- Any member of the successful-RTT list is bracketed by min_rtt and
max_rtt (which in particular exist). -/
theorem mem_rtts_between (r : LatencyResult) (v : ℚ) (hv : v ∈ r.rtts) :
    ∃ mn mx, r.min_rtt = some mn ∧ r.max_rtt = some mx ∧ mn ≤ v ∧ v ≤ mx := by
  rcases minFold_le r.rtts none v (Or.inr hv) with ⟨mn, hmn, h1⟩
  rcases maxFold_ge r.rtts none v (Or.inr hv) with ⟨mx, hmx, h2⟩
  exact ⟨mn, mx, hmn, hmx, h1, h2⟩

/-! ### Claim C1 -/

/-- A latency result with a single successful probe, used to refute the
claim at p = 100. -/
def exLat1 : LatencyResult := ⟨[⟨some 10, 0⟩]⟩

/-- Claim C1, as frozen, is false at p = 100: exLat1 has one successful
measurement and 100 ∈ [0,100], yet percentile_rtt returns None, because
the computed index round(100/100 · 1) = 1 is out of range. -/
theorem C1_counterexample :
    ¬ ((exLat1.percentile_rtt 100).isSome ↔
        ((0:ℚ) ≤ 100 ∧ (100:ℚ) ≤ 100 ∧ 0 < exLat1.successful_count)) := by
  have h1 : exLat1.percentile_rtt 100 = none := by
    norm_num [LatencyResult.percentile_rtt, rustRound, exLat1, LatencyResult.rtts,
      List.filterMap_cons, List.insertionSort, List.orderedInsert]
  have h2 : exLat1.successful_count = 1 := by decide
  intro h
  rw [h1, h2] at h
  norm_num at h

/-- Claim C1 (amended): percentile_rtt(p) returns Some iff p ∈ [0,100] and
the linear index round(p/100 · n) is strictly below n, the number of
successful measurements (in particular at least one exists); every
returned value lies within [min_rtt, max_rtt]. -/
theorem C1_percentile_bounds (r : LatencyResult) (p : ℚ) :
    ((r.percentile_rtt p).isSome ↔
      (0 ≤ p ∧ p ≤ 100 ∧
        (rustRound (p / 100 * (r.rtts.length : ℚ))).toNat < r.rtts.length))
    ∧ (r.percentile_rtt p).elim True
        (fun v => ∃ mn mx, r.min_rtt = some mn ∧ r.max_rtt = some mx ∧
          mn ≤ v ∧ v ≤ mx) := by
  unfold LatencyResult.percentile_rtt
  by_cases hp : 0 ≤ p ∧ p ≤ 100
  · rw [if_neg (by simpa using hp)]
    have hlen : (List.insertionSort (· ≤ ·) r.rtts).length = r.rtts.length :=
      List.length_insertionSort _ _
    constructor
    · by_cases hidx :
        (rustRound (p / 100 * ((List.insertionSort (· ≤ ·) r.rtts).length : ℚ))).toNat <
          (List.insertionSort (· ≤ ·) r.rtts).length
      · rw [dif_pos hidx]
        simp only [Option.isSome_some, true_iff]
        exact ⟨hp.1, hp.2, by rw [← hlen]; exact hidx⟩
      · rw [dif_neg hidx]
        simp only [Option.isSome_none, Bool.false_eq_true, false_iff]
        intro hcon
        exact hidx (by rw [hlen]; exact hcon.2.2)
    · by_cases hidx :
        (rustRound (p / 100 * ((List.insertionSort (· ≤ ·) r.rtts).length : ℚ))).toNat <
          (List.insertionSort (· ≤ ·) r.rtts).length
      · rw [dif_pos hidx]
        simp only [Option.elim_some]
        have hmem : (List.insertionSort (· ≤ ·) r.rtts).get ⟨_, hidx⟩ ∈
            List.insertionSort (· ≤ ·) r.rtts := List.get_mem _ _ _
        have hmem2 : (List.insertionSort (· ≤ ·) r.rtts).get ⟨_, hidx⟩ ∈ r.rtts :=
          (List.perm_insertionSort (· ≤ ·) r.rtts).mem_iff.mp hmem
        exact mem_rtts_between r _ hmem2
      · rw [dif_neg hidx]
        simp
  · rw [if_pos (by simpa using hp)]
    constructor
    · simp only [Option.isSome_none, Bool.false_eq_true, false_iff]
      intro hcon
      exact hp ⟨hcon.1, hcon.2.1⟩
    · simp

/-! ### Claim C2 -/

/-- The spec scenario: successful RTTs exactly [10, 20, 30, 40, 50] ms. -/
def exLat2 : LatencyResult :=
  ⟨[⟨some 10, 0⟩, ⟨some 20, 0⟩, ⟨some 30, 0⟩, ⟨some 40, 0⟩, ⟨some 50, 0⟩]⟩

/-- Claim C2, as frozen, is false on the code: with sorted RTTs
[10,20,30,40,50] the index for p = 50 is round(0.5 · 5) = round(2.5) = 3
(f64 rounds half away from zero), so percentile_rtt(50) is 40, not 30. -/
theorem C2_counterexample : exLat2.percentile_rtt 50 ≠ some 30 := by
  have h : exLat2.percentile_rtt 50 = some 40 := by
    norm_num [LatencyResult.percentile_rtt, rustRound, exLat2, LatencyResult.rtts,
      List.filterMap_cons, List.insertionSort, List.orderedInsert, Int.toNat_ofNat]
    rfl
  rw [h]
  intro hcon
  have := Option.some.inj hcon
  norm_num at this

/-- Claim C2 (amended): for successful RTTs [10,20,30,40,50] ms the code
yields min = 10, max = 50, avg = 30, percentile(50) = 40 (linear index
round(p/100 · n) = 3 after ascending sort), None at an out-of-range index
(p = 100), and jitter = √200 ≈ 14.142: the squared jitter is exactly 200,
strictly between 14.142² and 14.143². -/
theorem C2_latency_scenario :
    exLat2.min_rtt = some 10 ∧
    exLat2.max_rtt = some 50 ∧
    exLat2.avg_rtt = some 30 ∧
    exLat2.percentile_rtt 50 = some 40 ∧
    exLat2.percentile_rtt 100 = none ∧
    exLat2.jitterSq = some 200 ∧
    ((14142/1000 : ℚ))^2 < 200 ∧ (200:ℚ) < ((14143/1000 : ℚ))^2 := by
  refine ⟨?_, ?_, ?_, ?_, ?_, ?_, by norm_num, by norm_num⟩
  · norm_num [LatencyResult.min_rtt, minFold, exLat2, LatencyResult.rtts,
      List.filterMap_cons, List.foldl_cons, List.foldl_nil, min_def]
  · norm_num [LatencyResult.max_rtt, maxFold, exLat2, LatencyResult.rtts,
      List.filterMap_cons, List.foldl_cons, List.foldl_nil, max_def]
  · norm_num [LatencyResult.avg_rtt, exLat2, LatencyResult.rtts, List.filterMap_cons]
  · norm_num [LatencyResult.percentile_rtt, rustRound, exLat2, LatencyResult.rtts,
      List.filterMap_cons, List.insertionSort, List.orderedInsert, Int.toNat_ofNat]
    rfl
  · norm_num [LatencyResult.percentile_rtt, rustRound, exLat2, LatencyResult.rtts,
      List.filterMap_cons, List.insertionSort, List.orderedInsert, Int.toNat_ofNat]
  · norm_num [LatencyResult.jitterSq, LatencyResult.avg_rtt, exLat2, LatencyResult.rtts,
      List.filterMap_cons]
    simp

/-! ## STP wire protocol (src/performance/udp/protocol.rs) -/

/-- Big-endian serialization of one u64 field (`BufMut::put_u64`),
modelled on ℕ: the eight bytes of the value reduced modulo 2^64. -/
def u64ToBytes (n : ℕ) : List ℕ :=
  [n / 2^56 % 256, n / 2^48 % 256, n / 2^40 % 256, n / 2^32 % 256,
   n / 2^24 % 256, n / 2^16 % 256, n / 2^8 % 256, n % 256]

/-- Big-endian read of one u64 field (`Buf::get_u64`). -/
def bytesToU64 (l : List ℕ) : ℕ :=
  l.foldl (fun acc b => acc * 256 + b) 0

/-- `StpHeader`: four u64 fields, 32 bytes on the wire. -/
structure StpHeader where
  packet_number : ℕ
  timestamp : ℕ
  latest_ack : ℕ
  ack_timestamp_echo : ℕ
deriving DecidableEq

/-- `StpHeader::SIZE`. -/
def StpHeader.SIZE : ℕ := 32

/-- `StpHeader::encode`: the four fields big-endian, in order. -/
def StpHeader.encode (h : StpHeader) : List ℕ :=
  u64ToBytes h.packet_number ++ u64ToBytes h.timestamp ++
    u64ToBytes h.latest_ack ++ u64ToBytes h.ack_timestamp_echo

/-- `StpHeader::decode`: None when shorter than 32 bytes, else the four
fields read big-endian. -/
def StpHeader.decode (buf : List ℕ) : Option StpHeader :=
  if buf.length < StpHeader.SIZE then none
  else
    some { packet_number := bytesToU64 (buf.take 8)
           timestamp := bytesToU64 ((buf.drop 8).take 8)
           latest_ack := bytesToU64 ((buf.drop 16).take 8)
           ack_timestamp_echo := bytesToU64 ((buf.drop 24).take 8) }

/-- `StpPacket`: header followed by the payload bytes. -/
structure StpPacket where
  header : StpHeader
  payload : List ℕ
deriving DecidableEq

/-- `StpPacket::encode`: header bytes then payload bytes. -/
def StpPacket.encode (p : StpPacket) : List ℕ :=
  p.header.encode ++ p.payload

/-- `StpPacket::decode`: None under 32 bytes; else decode the 32-byte
header slice and keep the rest as payload. -/
def StpPacket.decode (data : List ℕ) : Option StpPacket :=
  if data.length < StpHeader.SIZE then none
  else
    (StpHeader.decode (data.take StpHeader.SIZE)).map
      (fun h => { header := h, payload := data.drop StpHeader.SIZE })

/-- `StpPacket::is_ack_only`: empty payload. -/
def StpPacket.is_ack_only (p : StpPacket) : Bool :=
  p.payload.isEmpty

theorem length_u64ToBytes (n : ℕ) : (u64ToBytes n).length = 8 := rfl

theorem bytesToU64_u64ToBytes (n : ℕ) (h : n < 2^64) :
    bytesToU64 (u64ToBytes n) = n := by
  simp only [u64ToBytes, bytesToU64, List.foldl_cons, List.foldl_nil]
  omega

theorem StpHeader.length_encode (h : StpHeader) : h.encode.length = 32 := by
  simp [StpHeader.encode, length_u64ToBytes]

/-- Decoding an encoded header restores the four fields (u64 range). -/
theorem StpHeader.decode_encode (h : StpHeader)
    (h1 : h.packet_number < 2^64) (h2 : h.timestamp < 2^64)
    (h3 : h.latest_ack < 2^64) (h4 : h.ack_timestamp_echo < 2^64) :
    StpHeader.decode h.encode = some h := by
  have hlen : h.encode.length = 32 := h.length_encode
  unfold StpHeader.decode
  rw [if_neg (by rw [hlen]; simp [StpHeader.SIZE])]
  have e1 : h.encode.take 8 = u64ToBytes h.packet_number := by
    unfold StpHeader.encode
    exact List.take_left' (length_u64ToBytes _)
  have ed8 : h.encode.drop 8 =
      u64ToBytes h.timestamp ++ u64ToBytes h.latest_ack ++
        u64ToBytes h.ack_timestamp_echo := by
    unfold StpHeader.encode
    rw [List.append_assoc, List.append_assoc]
    rw [List.drop_left' (length_u64ToBytes _)]
    rw [List.append_assoc]
  have ed16 : h.encode.drop 16 =
      u64ToBytes h.latest_ack ++ u64ToBytes h.ack_timestamp_echo := by
    have : h.encode.drop 16 = (h.encode.drop 8).drop 8 := by
      rw [List.drop_drop]
    rw [this, ed8, List.append_assoc]
    exact List.drop_left' (length_u64ToBytes _)
  have ed24 : h.encode.drop 24 = u64ToBytes h.ack_timestamp_echo := by
    have : h.encode.drop 24 = (h.encode.drop 16).drop 8 := by
      rw [List.drop_drop]
    rw [this, ed16]
    exact List.drop_left' (length_u64ToBytes _)
  rw [e1, ed8, ed16, ed24]
  rw [List.append_assoc]
  rw [List.take_left' (length_u64ToBytes _), List.take_left' (length_u64ToBytes _)]
  rw [List.take_of_length_le (le_of_eq (length_u64ToBytes _))]
  rw [bytesToU64_u64ToBytes _ h1, bytesToU64_u64ToBytes _ h2,
    bytesToU64_u64ToBytes _ h3, bytesToU64_u64ToBytes _ h4]

/-- The spec scenario packet: header (1, 2, 3, 4), payload b"hello world". -/
def exPkt : StpPacket :=
  ⟨⟨1, 2, 3, 4⟩, [104, 101, 108, 108, 111, 32, 119, 111, 114, 108, 100]⟩

/-- An ACK-only packet used to witness the round-trip theorem. -/
def exPktAck : StpPacket := ⟨⟨7, 1000000, 6, 999999⟩, []⟩

/-! ### Claim C6 -/

/-- Claim C6: every StpPacket whose fields fit u64 and whose payload is at
most 64 KiB decodes from its own encoding byte-for-byte; concretely, for
header (1, 2, 3, 4) with payload b"hello world" the encoding is exactly
43 bytes, decode restores the identical packet, and is_ack_only() is
false. -/
theorem C6_stp_roundtrip :
    (∀ p : StpPacket, p.header.packet_number < 2^64 → p.header.timestamp < 2^64 →
      p.header.latest_ack < 2^64 → p.header.ack_timestamp_echo < 2^64 →
      p.payload.length ≤ 65536 →
      StpPacket.decode p.encode = some p)
    ∧ exPkt.encode.length = 43
    ∧ StpPacket.decode exPkt.encode = some exPkt
    ∧ exPkt.is_ack_only = false := by
  refine ⟨?_, by decide, by decide, by decide⟩
  intro p h1 h2 h3 h4 _
  have hlen : p.encode.length = 32 + p.payload.length := by
    simp [StpPacket.encode, StpHeader.length_encode]
  unfold StpPacket.decode
  rw [if_neg (by rw [hlen]; simp [StpHeader.SIZE])]
  have ht : p.encode.take StpHeader.SIZE = p.header.encode := by
    unfold StpPacket.encode
    exact List.take_left' p.header.length_encode
  have hd : p.encode.drop StpHeader.SIZE = p.payload := by
    unfold StpPacket.encode
    exact List.drop_left' p.header.length_encode
  rw [ht, hd, StpHeader.decode_encode p.header h1 h2 h3 h4]
  simp

/-- Witness for C6: the round-trip theorem applied to the concrete
ACK-only packet exPktAck. -/
theorem C6_stp_roundtrip_witness :
    StpPacket.decode exPktAck.encode = some exPktAck :=
  C6_stp_roundtrip.1 exPktAck (by decide) (by decide) (by decide) (by decide)
    (by decide)

/-! ### Claim C7 -/

/-- Claim C7: an encoded STP header is always exactly 32 bytes (four
big-endian u64 fields), and decoding any input shorter than 32 bytes
returns None, both for StpHeader::decode and StpPacket::decode. -/
theorem C7_header_length :
    (∀ h : StpHeader, h.encode.length = 32) ∧
    (∀ data : List ℕ, data.length < 32 →
      StpHeader.decode data = none ∧ StpPacket.decode data = none) := by
  refine ⟨StpHeader.length_encode, ?_⟩
  intro data hlen
  constructor
  · unfold StpHeader.decode
    rw [if_pos (by simpa [StpHeader.SIZE] using hlen)]
  · unfold StpPacket.decode
    rw [if_pos (by simpa [StpHeader.SIZE] using hlen)]

/-- Witness for C7: the theorem applied to the header (1, 2, 3, 4) and to
a concrete 31-byte datagram. -/
theorem C7_header_length_witness :
    (StpHeader.encode ⟨1, 2, 3, 4⟩).length = 32 ∧
    StpHeader.decode (List.replicate 31 0) = none ∧
    StpPacket.decode (List.replicate 31 0) = none :=
  ⟨C7_header_length.1 ⟨1, 2, 3, 4⟩,
   C7_header_length.2 (List.replicate 31 0) (by decide)⟩

/-! ## Loss recovery (src/performance/udp/protocol.rs) -/

/-- `InFlightPacket` from protocol.rs; `sent_time` in microseconds. -/
structure InFlightPacket where
  packet_number : ℕ
  sent_time : ℕ
  size : ℕ
  data : List ℕ
  retransmitted : Bool
deriving DecidableEq

/-- `LossRecovery` state; `loss_timeout` is kept in microseconds (the
source stores a Duration and compares via as_micros). -/
structure LossRecovery where
  in_flight : List InFlightPacket
  largest_acked : ℕ
  loss_threshold : ℕ
  loss_timeout : ℕ
deriving DecidableEq

/-- `LossRecovery::new`: threshold 3, timeout 1000 ms = 1,000,000 µs. -/
def LossRecovery.new : LossRecovery :=
  { in_flight := [], largest_acked := 0, loss_threshold := 3,
    loss_timeout := 1000000 }

/-- `LossRecovery::on_packet_sent`: push to the back of the FIFO. -/
def LossRecovery.on_packet_sent (r : LossRecovery) (p : InFlightPacket) :
    LossRecovery :=
  { r with in_flight := r.in_flight ++ [p] }

/-- The `retain` walk of `on_ack_received`: classify each in-flight packet
as acked (number ≤ acked), lost (saturating higher-ack count reaches the
threshold, or age exceeds the timeout), or kept, preserving FIFO order.
Both subtractions are u64: `saturating_sub` is ℕ subtraction; the age
`now − sent_time` is modelled the same way, which matches the source
whenever the packet was sent no later than `now` (the only case that
execution produces). -/
def ackWalk (largest threshold timeoutMicros now acked : ℕ) :
    List InFlightPacket →
      List InFlightPacket × List InFlightPacket × List InFlightPacket
  | [] => ([], [], [])
  | p :: rest =>
    let r := ackWalk largest threshold timeoutMicros now acked rest
    if p.packet_number ≤ acked then (p :: r.1, r.2.1, r.2.2)
    else if threshold ≤ largest - p.packet_number ∨
        timeoutMicros < now - p.sent_time then
      (r.1, p :: r.2.1, r.2.2)
    else (r.1, r.2.1, p :: r.2.2)

/-- `LossRecovery::on_ack_received`: raise largest_acked to the maximum of
its old value and the arriving ACK, then walk the FIFO; returns the
(acked, lost) pair and the updated state. `now` stands for
current_timestamp_micros(). -/
def LossRecovery.on_ack_received (r : LossRecovery) (now acked : ℕ) :
    (List InFlightPacket × List InFlightPacket) × LossRecovery :=
  let largest := max r.largest_acked acked
  let w := ackWalk largest r.loss_threshold r.loss_timeout now acked r.in_flight
  ((w.1, w.2.1),
   { r with largest_acked := largest, in_flight := w.2.2 })

theorem ackWalk_eq_filter (largest threshold timeoutMicros now acked : ℕ)
    (l : List InFlightPacket) :
    ackWalk largest threshold timeoutMicros now acked l =
      (l.filter (fun p => p.packet_number ≤ acked),
       l.filter (fun p => ¬ p.packet_number ≤ acked ∧
         (threshold ≤ largest - p.packet_number ∨
           timeoutMicros < now - p.sent_time)),
       l.filter (fun p => ¬ p.packet_number ≤ acked ∧
         ¬ (threshold ≤ largest - p.packet_number ∨
           timeoutMicros < now - p.sent_time))) := by
  induction l with
  | nil => simp [ackWalk]
  | cons p rest ih =>
    simp only [ackWalk, ih]
    by_cases hp : p.packet_number ≤ acked
    · rw [if_pos hp]
      rw [List.filter_cons, List.filter_cons, List.filter_cons]
      rw [decide_eq_true hp,
        decide_eq_false (fun hc => hc.1 hp : ¬ (¬ p.packet_number ≤ acked ∧
          (threshold ≤ largest - p.packet_number ∨
            timeoutMicros < now - p.sent_time))),
        decide_eq_false (fun hc => hc.1 hp : ¬ (¬ p.packet_number ≤ acked ∧
          ¬ (threshold ≤ largest - p.packet_number ∨
            timeoutMicros < now - p.sent_time)))]
      simp
    · by_cases hq : threshold ≤ largest - p.packet_number ∨
        timeoutMicros < now - p.sent_time
      · rw [if_neg hp, if_pos hq]
        rw [List.filter_cons, List.filter_cons, List.filter_cons]
        rw [decide_eq_false hp,
          decide_eq_true (⟨hp, hq⟩ : ¬ p.packet_number ≤ acked ∧
            (threshold ≤ largest - p.packet_number ∨
              timeoutMicros < now - p.sent_time)),
          decide_eq_false (fun hc => hc.2 hq : ¬ (¬ p.packet_number ≤ acked ∧
            ¬ (threshold ≤ largest - p.packet_number ∨
              timeoutMicros < now - p.sent_time)))]
        simp
      · rw [if_neg hp, if_neg hq]
        rw [List.filter_cons, List.filter_cons, List.filter_cons]
        rw [decide_eq_false hp,
          decide_eq_false (fun hc => hq hc.2 : ¬ (¬ p.packet_number ≤ acked ∧
            (threshold ≤ largest - p.packet_number ∨
              timeoutMicros < now - p.sent_time))),
          decide_eq_true (⟨hp, hq⟩ : ¬ p.packet_number ≤ acked ∧
            ¬ (threshold ≤ largest - p.packet_number ∨
              timeoutMicros < now - p.sent_time))]
        simp

/-! ### Claim C5 -/

/-- Claim C5: for any state and ACK A, on_ack_received partitions the
previous in-flight FIFO: delivered are exactly the packets with number ≤
A, in FIFO order; lost are exactly the remaining ones whose (updated)
largest_acked minus number reaches the loss threshold or whose age
exceeds the loss timeout, in FIFO order; the rest are retained in FIFO
order; delivered and lost are disjoint subsets of the previous in-flight
set; and the defaults of LossRecovery::new are threshold 3 and timeout
1,000,000 µs. -/
theorem C5_loss_partition (r : LossRecovery) (now acked : ℕ) :
    ((r.on_ack_received now acked).1.1 =
        r.in_flight.filter (fun p => p.packet_number ≤ acked))
    ∧ ((r.on_ack_received now acked).1.2 =
        r.in_flight.filter (fun p => ¬ p.packet_number ≤ acked ∧
          (r.loss_threshold ≤ max r.largest_acked acked - p.packet_number ∨
            r.loss_timeout < now - p.sent_time)))
    ∧ ((r.on_ack_received now acked).2.in_flight =
        r.in_flight.filter (fun p => ¬ p.packet_number ≤ acked ∧
          ¬ (r.loss_threshold ≤ max r.largest_acked acked - p.packet_number ∨
            r.loss_timeout < now - p.sent_time)))
    ∧ (∀ p ∈ (r.on_ack_received now acked).1.1, p ∈ r.in_flight)
    ∧ (∀ p ∈ (r.on_ack_received now acked).1.2, p ∈ r.in_flight)
    ∧ (∀ p ∈ (r.on_ack_received now acked).1.1,
        p ∉ (r.on_ack_received now acked).1.2)
    ∧ LossRecovery.new.loss_threshold = 3
    ∧ LossRecovery.new.loss_timeout = 1000000 := by
  have hw := ackWalk_eq_filter (max r.largest_acked acked) r.loss_threshold
    r.loss_timeout now acked r.in_flight
  have h1 : (r.on_ack_received now acked).1.1 =
      r.in_flight.filter (fun p => p.packet_number ≤ acked) := by
    simp only [LossRecovery.on_ack_received, hw]
  have h2 : (r.on_ack_received now acked).1.2 =
      r.in_flight.filter (fun p => ¬ p.packet_number ≤ acked ∧
        (r.loss_threshold ≤ max r.largest_acked acked - p.packet_number ∨
          r.loss_timeout < now - p.sent_time)) := by
    simp only [LossRecovery.on_ack_received, hw]
  have h3 : (r.on_ack_received now acked).2.in_flight =
      r.in_flight.filter (fun p => ¬ p.packet_number ≤ acked ∧
        ¬ (r.loss_threshold ≤ max r.largest_acked acked - p.packet_number ∨
          r.loss_timeout < now - p.sent_time)) := by
    simp only [LossRecovery.on_ack_received, hw]
  refine ⟨h1, h2, h3, ?_, ?_, ?_, rfl, rfl⟩
  · intro p hp
    rw [h1] at hp
    exact List.mem_of_mem_filter hp
  · intro p hp
    rw [h2] at hp
    exact List.mem_of_mem_filter hp
  · intro p hp hq
    rw [h1] at hp
    rw [h2] at hq
    have e1 := (List.mem_filter.mp hp).2
    have e2 := (List.mem_filter.mp hq).2
    simp only [decide_eq_true_eq] at e1 e2
    exact absurd e1 e2.1

/-- The loss-recovery state of spec scenario 3: packets 1–6 in flight,
all sent at time 0, default thresholds. -/
def exLoss : LossRecovery :=
  { in_flight :=
      [⟨1, 0, 100, [], false⟩, ⟨2, 0, 100, [], false⟩, ⟨3, 0, 100, [], false⟩,
       ⟨4, 0, 100, [], false⟩, ⟨5, 0, 100, [], false⟩, ⟨6, 0, 100, [], false⟩],
    largest_acked := 0, loss_threshold := 3, loss_timeout := 1000000 }

/-- Witness for C5: applied to scenario 3 (ACK 5 against in-flight 1–6),
packet 1 is delivered, belongs to the previous in-flight set, and is not
among the lost. -/
theorem C5_loss_partition_witness :
    (⟨1, 0, 100, [], false⟩ : InFlightPacket) ∈ exLoss.in_flight ∧
    (⟨1, 0, 100, [], false⟩ : InFlightPacket) ∉
      (exLoss.on_ack_received 0 5).1.2 :=
  ⟨(C5_loss_partition exLoss 0 5).2.2.2.1 ⟨1, 0, 100, [], false⟩ (by decide),
   (C5_loss_partition exLoss 0 5).2.2.2.2.2.1 ⟨1, 0, 100, [], false⟩ (by decide)⟩

/-! ### Claim C9 -/

/-- A sequence of on_ack_received calls: each list entry is a pair
(now, latest_ack) fed to one call, keeping only the updated state. -/
def ackSequence (r : LossRecovery) (acks : List (ℕ × ℕ)) : LossRecovery :=
  acks.foldl (fun s na => (s.on_ack_received na.1 na.2).2) r

/-- Claim C9: largest_acked is monotonically non-decreasing across any
sequence of on_ack_received calls — a single call never lowers it (it
becomes max(largest_acked, A)), hence neither does any sequence. -/
theorem C9_largest_acked_monotone (r : LossRecovery) :
    (∀ now acked : ℕ,
      r.largest_acked ≤ ((r.on_ack_received now acked).2).largest_acked ∧
      ((r.on_ack_received now acked).2).largest_acked =
        max r.largest_acked acked)
    ∧ (∀ acks : List (ℕ × ℕ),
        r.largest_acked ≤ (ackSequence r acks).largest_acked) := by
  constructor
  · intro now acked
    exact ⟨le_max_left _ _, rfl⟩
  · intro acks
    induction acks generalizing r with
    | nil => simp [ackSequence]
    | cons a t ih =>
      have hstep : ackSequence r (a :: t) =
          ackSequence ((r.on_ack_received a.1 a.2).2) t := by
        simp [ackSequence]
      rw [hstep]
      exact le_trans (le_max_left _ _) (ih ((r.on_ack_received a.1 a.2).2))

/-! ## Throughput statistics (src/report/result/throughput.rs and
src/report/measurement/throughput.rs) -/

/-- `ConnectionError`: the closed error taxonomy. -/
inductive ConnectionError
  | ConnectionFailed (msg : String)
  | TransferFailed (msg : String)
  | Timeout (msg : String)
  | Unknown (msg : String)
deriving DecidableEq

/-- `ThroughputMeasurement`: Success with bytes/duration or Failure with
error, duration and retry count (durations in microseconds). -/
inductive ThroughputMeasurement
  | Success (bytes : ℕ) (duration : ℕ)
  | Failure (error : ConnectionError) (duration : ℕ) (retry_count : ℕ)
deriving DecidableEq

/-- The `matches!(m, ThroughputMeasurement::Success { .. })` test. -/
def ThroughputMeasurement.isSuccess : ThroughputMeasurement → Bool
  | .Success _ _ => true
  | .Failure _ _ _ => false

/-- `ThroughputResult` (timestamp omitted; `total_duration` in
microseconds). -/
structure ThroughputResult where
  measurements : List ThroughputMeasurement
  total_duration : ℕ
deriving DecidableEq

/-- `ThroughputResult::bytes_transferred`: sum of Success bytes. -/
def ThroughputResult.bytes_transferred (t : ThroughputResult) : ℕ :=
  (t.measurements.map (fun m =>
    match m with
    | .Success bytes _ => bytes
    | .Failure _ _ _ => 0)).sum

/-- `ThroughputResult::connection_success_rate`: 0.0 for an empty vector,
else the count of Success measurements over the total count. -/
def ThroughputResult.connection_success_rate (t : ThroughputResult) : ℚ :=
  if t.measurements = [] then 0
  else ((t.measurements.filter (fun m => m.isSuccess)).length : ℚ) /
    (t.measurements.length : ℚ)

/-- `ThroughputResult::request_success_rate`: delegates to
connection_success_rate. -/
def ThroughputResult.request_success_rate (t : ThroughputResult) : ℚ :=
  t.connection_success_rate

/-! ### Claim C10 -/

/-- Claim C10: connection_success_rate is 0 on an empty measurement
vector and otherwise the fraction of Success measurements; it always lies
in [0, 1]; request_success_rate is identical. -/
theorem C10_success_rate (t : ThroughputResult) :
    (t.measurements = [] → t.connection_success_rate = 0)
    ∧ (t.measurements ≠ [] → t.connection_success_rate =
        ((t.measurements.filter (fun m => m.isSuccess)).length : ℚ) /
          (t.measurements.length : ℚ))
    ∧ 0 ≤ t.connection_success_rate
    ∧ t.connection_success_rate ≤ 1
    ∧ t.request_success_rate = t.connection_success_rate := by
  refine ⟨?_, ?_, ?_, ?_, rfl⟩
  · intro h
    simp [ThroughputResult.connection_success_rate, h]
  · intro h
    simp [ThroughputResult.connection_success_rate, h]
  · by_cases h : t.measurements = []
    · simp [ThroughputResult.connection_success_rate, h]
    · rw [ThroughputResult.connection_success_rate, if_neg h]
      positivity
  · by_cases h : t.measurements = []
    · simp [ThroughputResult.connection_success_rate, h]
    · rw [ThroughputResult.connection_success_rate, if_neg h]
      have hpos : 0 < (t.measurements.length : ℚ) := by
        have := List.length_pos.mpr h
        exact_mod_cast this
      rw [div_le_one hpos]
      exact_mod_cast List.length_filter_le _ _

/-- A concrete throughput result: one success, one failure. -/
def exThr : ThroughputResult :=
  { measurements :=
      [.Success 8192 1500, .Failure (.Unknown "reset") 2000 0],
    total_duration := 2000000 }

/-- Witness for C10: the theorem applied to the empty result and to
exThr. -/
theorem C10_success_rate_witness :
    ({ measurements := [], total_duration := 0 } :
        ThroughputResult).connection_success_rate = 0
    ∧ exThr.connection_success_rate =
        ((exThr.measurements.filter (fun m => m.isSuccess)).length : ℚ) /
          (exThr.measurements.length : ℚ)
    ∧ 0 ≤ exThr.connection_success_rate
    ∧ exThr.connection_success_rate ≤ 1 :=
  ⟨(C10_success_rate _).1 rfl,
   (C10_success_rate exThr).2.1 (by simp [exThr]),
   (C10_success_rate exThr).2.2.1,
   (C10_success_rate exThr).2.2.2.1⟩

/-! ## Configuration constructors (src/report/config.rs, src/constants.rs) -/

def DEFAULT_TCP_PORT : ℕ := 5201
def DEFAULT_UDP_PORT : ℕ := 5201
def DEFAULT_HTTP_PORT : ℕ := 8080
def DEFAULT_HTTPS_PORT : ℕ := 8443
def DEFAULT_TCP_PAYLOAD_SIZES : List ℕ := [1024, 8192, 65536]
def DEFAULT_UDP_PAYLOAD_SIZES : List ℕ := [1024, 8192, 65536]
def DEFAULT_HTTP_PAYLOAD_SIZES : List ℕ := [1048576, 10485760, 104857600]

/-- `IndexSet::from_iter` / collect into an IndexSet: keep the first
occurrence of every element, in insertion order. -/
def indexSetFromIter (l : List ℕ) : List ℕ :=
  l.foldl (fun acc x => if x ∈ acc then acc else acc ++ [x]) []

theorem indexSetFromIter_aux_nodup (l : List ℕ) : ∀ acc : List ℕ, acc.Nodup →
    (l.foldl (fun acc x => if x ∈ acc then acc else acc ++ [x]) acc).Nodup := by
  induction l with
  | nil => intro acc h; simpa using h
  | cons x t ih =>
    intro acc h
    rw [List.foldl_cons]
    by_cases hx : x ∈ acc
    · rw [if_pos hx]
      exact ih acc h
    · rw [if_neg hx]
      refine ih _ ?_
      rw [List.nodup_append]
      refine ⟨h, List.nodup_singleton x, ?_⟩
      intro a ha hmem
      exact hx ((List.mem_singleton.mp hmem) ▸ ha)

theorem indexSetFromIter_nodup (l : List ℕ) : (indexSetFromIter l).Nodup :=
  indexSetFromIter_aux_nodup l [] List.nodup_nil

/-- `HttpVersion` (src/performance/http/client.rs). -/
inductive HttpVersion
  | HTTP1
  | H2C
  | HTTP2
  | HTTP3
deriving DecidableEq

/-- The `is_secure` match in `HttpTestConfig::new`: HTTP2 and HTTP3 use
TLS, HTTP1 and H2C are cleartext. -/
def HttpVersion.is_secure : HttpVersion → Bool
  | .HTTP1 => false
  | .H2C => false
  | .HTTP2 => true
  | .HTTP3 => true

/-- `TestType` (closed set, src/report). -/
inductive TestType
  | Download
  | Upload
  | Bidirectional
  | Simultaneous
  | LatencyOnly
deriving DecidableEq

/-- `TcpTestConfig` (duration in seconds). -/
structure TcpTestConfig where
  server : String
  port : ℕ
  duration : ℕ
  parallel_connections : ℕ
  payload_sizes : List ℕ
deriving DecidableEq

/-- `TcpTestConfig::new`. -/
def TcpTestConfig.new (server : String) (port : Option ℕ) (duration : ℕ)
    (parallel_connections : ℕ) (payload_sizes : List ℕ) : TcpTestConfig :=
  let ps := indexSetFromIter payload_sizes
  { server := server
    port := port.getD DEFAULT_TCP_PORT
    duration := duration
    parallel_connections := max parallel_connections 1
    payload_sizes := if ps = [] then DEFAULT_TCP_PAYLOAD_SIZES else ps }

/-- `UdpTestConfig` (duration kept as the raw u64 of the source). -/
structure UdpTestConfig where
  server : String
  port : ℕ
  duration : ℕ
  parallel_streams : ℕ
  payload_sizes : List ℕ
deriving DecidableEq

/-- `UdpTestConfig::new`. -/
def UdpTestConfig.new (server : String) (port : Option ℕ) (duration : ℕ)
    (parallel_streams : ℕ) (payload_sizes : List ℕ) : UdpTestConfig :=
  let ps := indexSetFromIter payload_sizes
  { server := server
    port := port.getD DEFAULT_UDP_PORT
    duration := duration
    parallel_streams := max parallel_streams 1
    payload_sizes := if ps = [] then DEFAULT_UDP_PAYLOAD_SIZES else ps }

/-- `HttpTestConfig`. -/
structure HttpTestConfig where
  server_url : String
  duration : ℕ
  parallel_connections : ℕ
  test_type : TestType
  payload_sizes : List ℕ
  http_version : HttpVersion
deriving DecidableEq

/-- `HttpTestConfig::new`: derives the scheme from the version, the port
default from the scheme, and formats scheme://server:port. -/
def HttpTestConfig.new (server : String) (port : Option ℕ) (duration : ℕ)
    (parallel_connections : ℕ) (test_type : TestType)
    (payload_sizes : List ℕ) (http_version : HttpVersion) : HttpTestConfig :=
  let ps := indexSetFromIter payload_sizes
  let scheme := if http_version.is_secure then "https" else "http"
  let port2 := port.getD
    (if http_version.is_secure then DEFAULT_HTTPS_PORT else DEFAULT_HTTP_PORT)
  { server_url := scheme ++ "://" ++ server ++ ":" ++ toString port2
    duration := duration
    parallel_connections := max parallel_connections 1
    test_type := test_type
    payload_sizes := if ps = [] then DEFAULT_HTTP_PAYLOAD_SIZES else ps
    http_version := http_version }

/-! ### Claim C8 -/

/-- Claim C8, as frozen, claims every constructed config has only
positive payload sizes; but the constructors never filter: a caller
passing [0] gets a configuration whose payload_sizes contains 0. -/
theorem C8_counterexample :
    ¬ (∀ x ∈ (TcpTestConfig.new "server" none 10 4 [0]).payload_sizes,
        0 < x) := by
  intro h
  have h0 : (TcpTestConfig.new "server" none 10 4 [0]).payload_sizes = [0] := by
    simp [TcpTestConfig.new, indexSetFromIter]
  have := h 0 (by rw [h0]; exact List.mem_singleton_self 0)
  exact Nat.lt_irrefl 0 this

/-- Claim C8 (amended): every constructed config has parallel
connections/streams at least 1 and duplicate-free, non-empty payload
sizes, with the documented defaults substituted when the caller supplies
an empty collection (elements are the caller's values verbatim;
positivity is NOT enforced); default ports are 5201 for TCP and UDP; the
HTTP server_url is scheme://host:port with the scheme chosen by the
version and port defaults 8080 (http) / 8443 (https). -/
theorem C8_config_invariants (server : String) (port : Option ℕ)
    (duration pc : ℕ) (ps : List ℕ) (tt : TestType) (ver : HttpVersion) :
    (1 ≤ (TcpTestConfig.new server port duration pc ps).parallel_connections
      ∧ (TcpTestConfig.new server port duration pc ps).payload_sizes ≠ []
      ∧ (TcpTestConfig.new server port duration pc ps).payload_sizes.Nodup
      ∧ (ps = [] → (TcpTestConfig.new server port duration pc ps).payload_sizes
          = DEFAULT_TCP_PAYLOAD_SIZES)
      ∧ (TcpTestConfig.new server none duration pc ps).port = 5201)
    ∧ (1 ≤ (UdpTestConfig.new server port duration pc ps).parallel_streams
      ∧ (UdpTestConfig.new server port duration pc ps).payload_sizes ≠ []
      ∧ (UdpTestConfig.new server port duration pc ps).payload_sizes.Nodup
      ∧ (ps = [] → (UdpTestConfig.new server port duration pc ps).payload_sizes
          = DEFAULT_UDP_PAYLOAD_SIZES)
      ∧ (UdpTestConfig.new server none duration pc ps).port = 5201)
    ∧ (1 ≤ (HttpTestConfig.new server port duration pc tt ps ver).parallel_connections
      ∧ (HttpTestConfig.new server port duration pc tt ps ver).payload_sizes ≠ []
      ∧ (HttpTestConfig.new server port duration pc tt ps ver).payload_sizes.Nodup
      ∧ (ps = [] → (HttpTestConfig.new server port duration pc tt ps ver).payload_sizes
          = DEFAULT_HTTP_PAYLOAD_SIZES)
      ∧ (HttpTestConfig.new server port duration pc tt ps ver).server_url =
          (if ver.is_secure then "https" else "http") ++ "://" ++ server ++ ":" ++
            toString (port.getD
              (if ver.is_secure then DEFAULT_HTTPS_PORT else DEFAULT_HTTP_PORT))) := by
  refine ⟨⟨le_max_right _ _, ?_, ?_, ?_, rfl⟩,
    ⟨le_max_right _ _, ?_, ?_, ?_, rfl⟩,
    ⟨le_max_right _ _, ?_, ?_, ?_, rfl⟩⟩
  · by_cases h : indexSetFromIter ps = []
    · simp [TcpTestConfig.new, h, DEFAULT_TCP_PAYLOAD_SIZES]
    · simp [TcpTestConfig.new, h]
  · by_cases h : indexSetFromIter ps = []
    · simp [TcpTestConfig.new, h]
      decide
    · simp [TcpTestConfig.new, h]
      exact indexSetFromIter_nodup ps
  · intro h
    subst h
    simp [TcpTestConfig.new, indexSetFromIter]
  · by_cases h : indexSetFromIter ps = []
    · simp [UdpTestConfig.new, h, DEFAULT_UDP_PAYLOAD_SIZES]
    · simp [UdpTestConfig.new, h]
  · by_cases h : indexSetFromIter ps = []
    · simp [UdpTestConfig.new, h]
      decide
    · simp [UdpTestConfig.new, h]
      exact indexSetFromIter_nodup ps
  · intro h
    subst h
    simp [UdpTestConfig.new, indexSetFromIter]
  · by_cases h : indexSetFromIter ps = []
    · simp [HttpTestConfig.new, h, DEFAULT_HTTP_PAYLOAD_SIZES]
    · simp [HttpTestConfig.new, h]
  · by_cases h : indexSetFromIter ps = []
    · simp [HttpTestConfig.new, h]
      decide
    · simp [HttpTestConfig.new, h]
      exact indexSetFromIter_nodup ps
  · intro h
    subst h
    simp [HttpTestConfig.new, indexSetFromIter]

/-- Witness for C8: the invariants applied to concrete calls, with the
empty-payload implications discharged at ps = []. -/
theorem C8_config_invariants_witness :
    (TcpTestConfig.new "h" none 10 0 []).payload_sizes
        = DEFAULT_TCP_PAYLOAD_SIZES
    ∧ 1 ≤ (TcpTestConfig.new "h" none 10 0 []).parallel_connections
    ∧ (HttpTestConfig.new "h" none 10 2 .Download [] .HTTP2).payload_sizes
        = DEFAULT_HTTP_PAYLOAD_SIZES :=
  ⟨((C8_config_invariants "h" none 10 0 [] .Download .HTTP2).1).2.2.2.1 rfl,
   ((C8_config_invariants "h" none 10 0 [] .Download .HTTP2).1).1,
   ((C8_config_invariants "h" none 10 2 [] .Download .HTTP2).2.2).2.2.2.1 rfl⟩

/-! ## HTTP server download handler (src/performance/http/server.rs) -/

/-- The repeating pattern b"SpeedTestData0123456789ABCDEF" as byte
values. -/
def patternBytes : List ℕ :=
  "SpeedTestData0123456789ABCDEF".toList.map Char.toNat

/-- `PATTERN_BUFFER_1MB`: index i holds pattern[i mod pattern length]. -/
def PATTERN_BUFFER_1MB : List ℕ :=
  (List.range (1024 * 1024)).map
    (fun i => patternBytes.getD (i % patternBytes.length) 0)

/-- The pattern-path body construction of `handle_download`: a prefix of
the 1 MiB buffer for small sizes, else whole repetitions plus the
remainder prefix (the random path performs the same slicing over a random
1 MiB buffer). -/
def downloadData (size : ℕ) : List ℕ :=
  if size ≤ PATTERN_BUFFER_1MB.length then PATTERN_BUFFER_1MB.take size
  else
    let full_chunks := size / PATTERN_BUFFER_1MB.length
    let remainder := size % PATTERN_BUFFER_1MB.length
    (List.replicate full_chunks PATTERN_BUFFER_1MB).flatten ++
      (if 0 < remainder then PATTERN_BUFFER_1MB.take remainder else [])

/-- Rust `usize::clamp(lo, hi)` (with lo ≤ hi, as in the source call). -/
def rustClamp (x lo hi : ℕ) : ℕ :=
  if x < lo then lo else if hi < x then hi else x

/-- The response a handler returns: status code, Content-Length header
value, body bytes. -/
structure HttpResponse where
  status : ℕ
  content_length : ℕ
  body : List ℕ
deriving DecidableEq

/-- `handle_download` for `GET /download`: `sizeParam` is the parsed
`size` query parameter (None when absent or unparsable, defaulting to
1 MiB); the size is clamped to [1024, 1 GiB]; the response carries
Content-Length equal to the clamped size and the pattern body. -/
def handle_download (sizeParam : Option ℕ) : HttpResponse :=
  let size := sizeParam.getD (1024 * 1024)
  let size2 := rustClamp size 1024 (1024 * 1024 * 1024)
  { status := 200, content_length := size2, body := downloadData size2 }

theorem length_PATTERN_BUFFER_1MB : PATTERN_BUFFER_1MB.length = 1024 * 1024 := by
  simp [PATTERN_BUFFER_1MB]

theorem length_downloadData (size : ℕ) : (downloadData size).length = size := by
  unfold downloadData
  by_cases h : size ≤ PATTERN_BUFFER_1MB.length
  · rw [if_pos h]
    rw [List.length_take]
    exact Nat.min_eq_left h
  · rw [if_neg h]
    rw [List.length_append, List.length_flatten, List.map_replicate,
      List.sum_replicate, smul_eq_mul]
    by_cases hrem : 0 < size % PATTERN_BUFFER_1MB.length
    · rw [if_pos hrem, List.length_take]
      rw [length_PATTERN_BUFFER_1MB] at h hrem ⊢
      omega
    · rw [if_neg hrem]
      rw [length_PATTERN_BUFFER_1MB] at h hrem ⊢
      simp only [List.length_nil]
      omega

/-! ### Claim C4 -/

theorem handle_download_body_eq_cl (p : Option ℕ) :
    (handle_download p).body.length = (handle_download p).content_length :=
  length_downloadData _

/-- Claim C4, as frozen, is false: the handler clamps the requested size
to [1024, 1 GiB], so GET /download?size=512 answers with Content-Length
1024 and a 1024-byte body, not 512. -/
theorem C4_counterexample :
    (handle_download (some 512)).content_length ≠ 512 ∧
    (handle_download (some 512)).body.length ≠ 512 := by
  have hcl : (handle_download (some 512)).content_length = 1024 := by decide
  rw [handle_download_body_eq_cl, hcl]
  norm_num

/-- Claim C4 (amended): for GET /download?size=N the handler answers 200
with Content-Length equal to clamp(N, 1024, 1 GiB) (default N = 1 MiB
when the parameter is absent) and a body of exactly that many bytes — so
body length always equals the Content-Length header, but equals N itself
only when N already lies within the clamp range. -/
theorem C4_download_body_size (sizeParam : Option ℕ) :
    (handle_download sizeParam).status = 200
    ∧ (handle_download sizeParam).content_length =
        rustClamp (sizeParam.getD (1024 * 1024)) 1024 (1024 * 1024 * 1024)
    ∧ (handle_download sizeParam).body.length =
        (handle_download sizeParam).content_length :=
  ⟨rfl, rfl, length_downloadData _⟩

/-! ## Report map ordering (src/report/result/network.rs and the driver
loops of src/performance) -/

/-- `IndexMap::insert`: replace in place when the key exists, else append
at the end (insertion order preserved). -/
def indexMapInsert (m : List (ℕ × ThroughputResult)) (k : ℕ)
    (v : ThroughputResult) : List (ℕ × ThroughputResult) :=
  if m.any (fun kv => kv.1 = k) then
    m.map (fun kv => if kv.1 = k then (k, v) else kv)
  else m ++ [(k, v)]

/-- The per-size driver loop (e.g. the Download arm of run_udp_client):
for each payload size in configured order, insert that size's result into
the NetworkTestResult download map. -/
def collectBySize (sizes : List ℕ) (f : ℕ → ThroughputResult) :
    List (ℕ × ThroughputResult) :=
  sizes.foldl (fun m s => indexMapInsert m s (f s)) []

theorem collectBySize_aux (f : ℕ → ThroughputResult) :
    ∀ (sizes : List ℕ) (acc : List (ℕ × ThroughputResult)),
      sizes.Nodup → (∀ s ∈ sizes, ∀ kv ∈ acc, kv.1 ≠ s) →
      ((sizes.foldl (fun m s => indexMapInsert m s (f s)) acc).map Prod.fst)
        = acc.map Prod.fst ++ sizes := by
  intro sizes
  induction sizes with
  | nil => intro acc _ _; simp
  | cons s t ih =>
    intro acc hnd hdis
    rw [List.foldl_cons]
    have hins : indexMapInsert acc s (f s) = acc ++ [(s, f s)] := by
      unfold indexMapInsert
      rw [if_neg]
      simp only [List.any_eq_true, decide_eq_true_eq, not_exists]
      intro kv hkv
      exact hdis s (List.mem_cons_self s t) kv hkv.1 hkv.2
    rw [hins]
    have ht := ih (acc ++ [(s, f s)]) (List.Nodup.of_cons hnd) ?_
    · rw [ht, List.map_append]
      simp
    · intro q hq kv hkv
      rcases List.mem_append.mp hkv with h | h
      · exact hdis q (List.mem_cons_of_mem s hq) kv h
      · have hkv2 : kv = (s, f s) := List.mem_singleton.mp h
        rw [hkv2]
        intro hc
        have hsq : s = q := hc
        have hsne : s ∉ t := (List.nodup_cons.mp hnd).1
        exact hsne (hsq ▸ hq)

/-! ### Claim C3 (supporting theorem; see RESULTS for the HashMap
divergence in TcpTestResult / HttpTestResult) -/

/-- Claim C3, restricted to the part the code satisfies: for any UDP
config (whose payload_sizes come from the IndexSet constructor and are
therefore duplicate-free), the driver loop inserting one result per
configured payload size produces a NetworkTestResult IndexMap whose keys
iterate exactly in the configured order. The TCP and HTTP result maps
are std HashMaps and carry no such guarantee. -/
theorem C3_network_result_order (server : String) (port : Option ℕ)
    (duration streams : ℕ) (ps : List ℕ) (f : ℕ → ThroughputResult) :
    ((collectBySize (UdpTestConfig.new server port duration streams ps).payload_sizes f).map
        Prod.fst)
      = (UdpTestConfig.new server port duration streams ps).payload_sizes := by
  have hnd : (UdpTestConfig.new server port duration streams ps).payload_sizes.Nodup := by
    by_cases h : indexSetFromIter ps = []
    · simp [UdpTestConfig.new, h]
      decide
    · simp [UdpTestConfig.new, h]
      exact indexSetFromIter_nodup ps
  have := collectBySize_aux f
    (UdpTestConfig.new server port duration streams ps).payload_sizes [] hnd
    (by intro s _ kv hkv; simp at hkv)
  simpa [collectBySize] using this

end SpeedCli
